import Mathlib

/-!
Shallow embedding of the `prime-gen-load` repository, covering the parts of
the code that the specification's claims are about.

Part 1 — coordinator (`src/instance-service/src/main.rs`):
the in-memory store (`HashMap<String, Worker>` behind a `Mutex`) is modelled
as an association list with unique keys; the two HTTP handlers
`register_sieve` and `save_result` are modelled as pure functions from the
store and the request payload to the new store plus the observable effects
(HTTP status, durable-mirror writes, warning events).  A Rust panic inside a
handler is modelled as `Option.none`.

Part 2 — orchestrator (`src/pod-generator/src/main.rs`): the handler
`init_workload` together with `deploy_instance_service` is modelled as a
function from the control-plane behaviour (an oracle mapping each attempted
resource creation to its `kube` result) to the ordered trace of creation
attempts and the HTTP response.
-/

/-- Derived result summary stored per worker
(struct `PrimeResult` at src/instance-service/src/main.rs lines 26-30:
`quantity: usize`, `max_prime: i32`). -/
structure PrimeResult where
  quantity : Nat
  max_prime : Int
deriving DecidableEq, Repr

/-- Record stored per worker identifier
(struct `Worker` at src/instance-service/src/main.rs lines 20-24). -/
structure Worker where
  id : String
  results : Option PrimeResult
deriving DecidableEq, Repr

/-- The coordinator's map `HashMap<String, Worker>` (field `sieve_map` of
`AppData`), modelled as an association list.  The Rust `HashMap` holds at
most one binding per key; that fact is the invariant `WFStore` below, which
every reachable store satisfies. -/
abbrev Store := List (String × Worker)

/-- Lookup of a key, modelling `HashMap::get`. -/
def lookupW (k : String) : Store → Option Worker
  | [] => none
  | (k1, w) :: rest => if k1 = k then some w else lookupW k rest

/-- Insert that replaces the existing binding for the key if present and
appends otherwise, modelling `HashMap::insert`. -/
def insertW (k : String) (w : Worker) : Store → Store
  | [] => [(k, w)]
  | (k1, w1) :: rest =>
      if k1 = k then (k, w) :: rest else (k1, w1) :: insertW k w rest

/-- In-place update of the value stored at a key, if any, modelling
`HashMap::entry(..).and_modify(..)` (src/instance-service/src/main.rs
line 111). -/
def modifyW (k : String) (f : Worker → Worker) : Store → Store
  | [] => []
  | (k1, w1) :: rest =>
      if k1 = k then (k1, f w1) :: rest else (k1, w1) :: modifyW k f rest

/-- Number of bindings a store holds for a key; "exactly one record for
`id`" is `countKey id s = 1`. -/
def countKey (k : String) (s : Store) : Nat :=
  s.countP (fun p => p.1 == k)

/-- Handler `register_sieve` (src/instance-service/src/main.rs lines
82-95): builds `Worker { id, results: None }`, unconditionally inserts it
under the id, and replies 201 Created.  The random sleep at lines 91-92
has no effect on the store or the response and is not modelled. -/
def register_sieve (s : Store) (sieveId : String) : Store × Nat :=
  (insertW sieveId { id := sieveId, results := none } s, 201)

/-- The summary `save_result` derives from the submitted list
(src/instance-service/src/main.rs lines 103-106):
`max_prime = primes.get(primes.len() - 1).unwrap()`,
`quantity = primes.len()`.  For the empty list `primes.len() - 1`
underflows and the `unwrap` panics, modelled as `none`; otherwise
`max_prime` is the LAST element of the list, in submission order. -/
def derived_summary (primes : List Int) : Option PrimeResult :=
  (primes[primes.length - 1]?).map
    (fun lastp => { quantity := primes.length, max_prime := lastp })

/-- Observable outcome of one successful `save_result` call: the new store,
the writes issued to the durable mirror (Redis `SET id max_prime`, lines
116 and 129), whether the out-of-order warning event was emitted (line
119), and the HTTP status. -/
structure SaveOutcome where
  store : Store
  redisWrites : List (String × Int)
  warned : Bool
  status : Nat
deriving DecidableEq, Repr

/-- Handler `save_result` (src/instance-service/src/main.rs lines 98-134).
It first derives the summary (panicking on an empty list, modelled as
`none`); then, if a record for the id exists, updates only its `results`
field via `and_modify`; otherwise logs the out-of-order warning and inserts
a fresh `Completed` record.  Both branches write `(id, max_prime)` to the
durable mirror and reply 200.  The mirror write is modelled as an emitted
effect that succeeds; its environmental failure modes (lines 115-116,
128-129 `unwrap`) are outside the state model. -/
def save_result (s : Store) (pid : String) (primes : List Int) :
    Option SaveOutcome :=
  match derived_summary primes with
  | none => none
  | some prime_res =>
    match lookupW pid s with
    | some _ =>
        some { store := modifyW pid (fun wo => { wo with results := some prime_res }) s,
               redisWrites := [(pid, prime_res.max_prime)],
               warned := false,
               status := 200 }
    | none =>
        some { store := insertW pid { id := pid, results := some prime_res } s,
               redisWrites := [(pid, prime_res.max_prime)],
               warned := true,
               status := 200 }

/-- An API operation against the coordinator store. -/
inductive Op where
  | register (id : String)
  | submit (id : String) (primes : List Int)
deriving DecidableEq, Repr

/-- Effect of one operation on the store.  A panicking `save_result`
(empty `primes`) leaves the store unchanged: the panic at line 104 occurs
before any map mutation. -/
def applyOp (s : Store) : Op → Store
  | .register i => (register_sieve s i).1
  | .submit i ps =>
      match save_result s i ps with
      | some out => out.store
      | none => s

/-- Sequential execution of a list of operations. -/
def run (s : Store) (ops : List Op) : Store :=
  ops.foldl applyOp s

/-- Store well-formedness: at most one binding per key (what the Rust
`HashMap` guarantees by construction) and every stored record's `id` field
equals the key it is stored under. -/
def WFStore (s : Store) : Prop :=
  (s.map Prod.fst).Nodup ∧ ∀ p ∈ s, (p.2).id = p.1

/-- Outcome of attempting one lock acquisition plus handler body.  Both
handlers take the store lock with `store.try_lock().unwrap()`
(src/instance-service/src/main.rs lines 86 and 99): `try_lock` does not
block, so when the mutex is currently held by another request the call
returns `Err` and the `unwrap` panics, aborting that request before it
touches the map. -/
inductive LockOutcome where
  | applied
  | panicked
deriving DecidableEq, Repr

/-- One handler invocation under the source's lock discipline: `locked`
says whether another request currently holds the `Mutex<AppData>`.  If it
does, `try_lock()` fails and the `unwrap()` panics — the operation is
dropped and the store is unchanged; otherwise the handler body runs
atomically under the lock. -/
def try_lock_call (locked : Bool) (s : Store) (op : Op) : Store × LockOutcome :=
  if locked then (s, .panicked) else (applyOp s op, .applied)

/-- A cluster resource creation the orchestrator attempts, in the order the
code attempts them (`src/pod-generator/src/main.rs`): the namespace (with
or without the linkerd-inject annotation, lines 43-61), the
`instance-service` Deployment and the headless Service (both inside
`deploy_instance_service`, lines 184-354), and the numbered
`prime-sieve-instance-{n}` worker pods (lines 108-169).  The literal JSON
manifests are transport encoding and are not modelled. -/
inductive Resource where
  | ns (name : String) (linkerdAnnotated : Bool)
  | deployment (targetNs : String)
  | service (targetNs : String)
  | workerPod (targetNs : String) (idx : Nat)
deriving DecidableEq, Repr

/-- Result of one control-plane `create` call, as the code distinguishes
them: success, a `kube::Error::Api(ae)` carrying an HTTP status code, or
any other `kube::Error` (connection failure, serialization, ...). -/
inductive KubeResult where
  | ok
  | apiErr (code : Nat)
  | otherErr
deriving DecidableEq, Repr

/-- Whether a control-plane result is a `kube::Error::Api` error. -/
def isApiErr : KubeResult → Bool
  | .apiErr _ => true
  | _ => false

/-- Control-plane behaviour is modelled as an oracle mapping each attempted
resource creation to its result.  `deploy_instance_service`
(src/pod-generator/src/main.rs lines 184-354) creates the Deployment and
then the headless Service; every error branch in it only logs — it never
aborts and returns nothing — so both creations are always attempted. -/
def deploy_instance_service (cp : Resource → KubeResult) (targetNs : String) :
    List (Resource × KubeResult) :=
  [(.deployment targetNs, cp (.deployment targetNs)),
   (.service targetNs, cp (.service targetNs))]

/-- The worker-pod loop `for n in 0..workload.count` of `init_workload`
(src/pod-generator/src/main.rs lines 108-169), in terms of the first index
to create and the number of pods left.  A `kube::Error::Api` error returns
`HttpResponse::InternalServerError` (500) immediately, abandoning the rest
of the loop; any other `kube::Error` is only logged (line 163) and the
loop continues.  Returns the trace of attempted creations with their
results, and the final HTTP status (200 when the loop runs to the end).
The fixed 150 ms pause between creations does not affect the trace. -/
def create_workers (cp : Resource → KubeResult) (targetNs : String) :
    Nat → Nat → List (Resource × KubeResult) × Nat
  | _, 0 => ([], 200)
  | idx, count + 1 =>
      match cp (.workerPod targetNs idx) with
      | .apiErr c => ([(.workerPod targetNs idx, .apiErr c)], 500)
      | r =>
          let rest := create_workers cp targetNs (idx + 1) count
          ((.workerPod targetNs idx, r) :: rest.1, rest.2)

/-- Handler `init_workload` (src/pod-generator/src/main.rs lines 36-173).
Control flow, in source order:
1. create the namespace (lines 43-84): on `kube::Error::Api` — whether 401
   unauthorized, 429 throttled, or any other code — log and return 500; on
   any other `kube::Error` hit `unimplemented!()` (line 82), a panic,
   modelled as response `none`;
2. only then validate the requested count (lines 86-89): `count <= 0`
   (count is `usize`, so `count == 0`) returns 400 Bad Request — after the
   namespace was already created;
3. deploy the instance service (Deployment, then headless Service);
4. create the worker pods;
5. reply 200.
Result: the ordered trace of attempted creations and the response status
(`none` for the `unimplemented!()` panic).  Sleeps, env-var reads for image
URLs, and the random namespace-name generation are not modelled; the
namespace name and the linkerd-inject flag are parameters. -/
def init_workload (cp : Resource → KubeResult) (linkerdInject : Bool)
    (targetNs : String) (count : Nat) :
    List (Resource × KubeResult) × Option Nat :=
  let nsRes := Resource.ns targetNs linkerdInject
  match cp nsRes with
  | .apiErr c => ([(nsRes, .apiErr c)], some 500)
  | .otherErr => ([(nsRes, .otherErr)], none)
  | .ok =>
      if count = 0 then
        ([(nsRes, .ok)], some 400)
      else
        let dtrace := deploy_instance_service cp targetNs
        let wres := create_workers cp targetNs 0 count
        ((nsRes, .ok) :: dtrace ++ wres.1, some wres.2)

/-- Control plane on which every creation succeeds. -/
def cpAllOk : Resource → KubeResult := fun _ => .ok

/-- Control plane that fails the creation of worker pod 0 with a
non-`Api` `kube::Error` and succeeds everywhere else. -/
def cpOtherErrW0 : Resource → KubeResult
  | .workerPod _ 0 => .otherErr
  | _ => .ok

/-- Control plane that fails the creation of worker pod 1 with a
`kube::Error::Api` error (HTTP 429) and succeeds everywhere else. -/
def cpApiErrW1 : Resource → KubeResult
  | .workerPod _ 1 => .apiErr 429
  | _ => .ok

theorem lookupW_insertW_self (k : String) (w : Worker) (s : Store) :
    lookupW k (insertW k w s) = some w := by
  induction s with
  | nil => simp [insertW, lookupW]
  | cons hd tl ih =>
      obtain ⟨k1, w1⟩ := hd
      by_cases h : k1 = k
      · simp [insertW, lookupW, h]
      · simp [insertW, lookupW, h, ih]

theorem lookupW_insertW_ne (k k' : String) (w : Worker) (s : Store)
    (h : k' ≠ k) : lookupW k' (insertW k w s) = lookupW k' s := by
  induction s with
  | nil => simp [insertW, lookupW, Ne.symm h]
  | cons hd tl ih =>
      obtain ⟨k1, w1⟩ := hd
      by_cases h1 : k1 = k
      · subst h1
        simp [insertW, lookupW, Ne.symm h]
      · simp [insertW, lookupW, h1, ih]

theorem lookupW_modifyW_self (k : String) (f : Worker → Worker) (s : Store) :
    lookupW k (modifyW k f s) = (lookupW k s).map f := by
  induction s with
  | nil => simp [modifyW, lookupW]
  | cons hd tl ih =>
      obtain ⟨k1, w1⟩ := hd
      by_cases h : k1 = k
      · simp [modifyW, lookupW, h]
      · simp [modifyW, lookupW, h, ih]

theorem lookupW_modifyW_ne (k k' : String) (f : Worker → Worker) (s : Store)
    (h : k' ≠ k) : lookupW k' (modifyW k f s) = lookupW k' s := by
  induction s with
  | nil => simp [modifyW, lookupW]
  | cons hd tl ih =>
      obtain ⟨k1, w1⟩ := hd
      by_cases h1 : k1 = k
      · subst h1
        simp [modifyW, lookupW, Ne.symm h]
      · simp [modifyW, lookupW, h1, ih]

theorem lookupW_eq_none_iff (k : String) (s : Store) :
    lookupW k s = none ↔ k ∉ s.map Prod.fst := by
  induction s with
  | nil => simp [lookupW]
  | cons hd tl ih =>
      obtain ⟨k1, w1⟩ := hd
      by_cases h : k1 = k
      · simp [lookupW, h]
      · simp [lookupW, h, ih, Ne.symm h]

theorem keys_modifyW (k : String) (f : Worker → Worker) (s : Store) :
    (modifyW k f s).map Prod.fst = s.map Prod.fst := by
  induction s with
  | nil => simp [modifyW]
  | cons hd tl ih =>
      obtain ⟨k1, w1⟩ := hd
      by_cases h : k1 = k
      · simp [modifyW, h]
      · simp [modifyW, h, ih]

theorem keys_insertW_mem (k : String) (w : Worker) (s : Store)
    (h : k ∈ s.map Prod.fst) :
    (insertW k w s).map Prod.fst = s.map Prod.fst := by
  induction s with
  | nil => simp at h
  | cons hd tl ih =>
      obtain ⟨k1, w1⟩ := hd
      by_cases h1 : k1 = k
      · simp [insertW, h1]
      · have : k ∈ tl.map Prod.fst := by
          rcases (by simpa using h) with h2 | h2
          · exact absurd h2.symm h1
          · simpa using h2
        simp [insertW, h1, ih this]

theorem keys_insertW_not_mem (k : String) (w : Worker) (s : Store)
    (h : k ∉ s.map Prod.fst) :
    (insertW k w s).map Prod.fst = s.map Prod.fst ++ [k] := by
  induction s with
  | nil => simp [insertW]
  | cons hd tl ih =>
      obtain ⟨k1, w1⟩ := hd
      have h1 : k1 ≠ k := by
        intro hh
        exact h (by simp [hh])
      have h2 : k ∉ tl.map Prod.fst := fun hh => h (by simp [hh])
      simp [insertW, h1, ih h2]

theorem countKey_eq_count_keys (k : String) (s : Store) :
    countKey k s = (s.map Prod.fst).count k := by
  simp [countKey, List.count, List.countP_map]
  rfl

theorem countKey_insertW_self (k : String) (w : Worker) (s : Store)
    (h : (s.map Prod.fst).Nodup) : countKey k (insertW k w s) = 1 := by
  by_cases hm : k ∈ s.map Prod.fst
  · rw [countKey_eq_count_keys, keys_insertW_mem k w s hm]
    exact List.count_eq_one_of_mem h hm
  · rw [countKey_eq_count_keys, keys_insertW_not_mem k w s hm]
    simp [List.count_append, List.count_eq_zero_of_not_mem hm]

theorem countKey_insertW_of_not_mem (k : String) (w : Worker) (s : Store)
    (h : lookupW k s = none) : countKey k (insertW k w s) = 1 := by
  have hm : k ∉ s.map Prod.fst := (lookupW_eq_none_iff k s).mp h
  rw [countKey_eq_count_keys, keys_insertW_not_mem k w s hm]
  simp [List.count_append, List.count_eq_zero_of_not_mem hm]

theorem countKey_modifyW (k k' : String) (f : Worker → Worker) (s : Store) :
    countKey k (modifyW k' f s) = countKey k s := by
  rw [countKey_eq_count_keys, countKey_eq_count_keys, keys_modifyW]

theorem keys_nodup_insertW (k : String) (w : Worker) (s : Store)
    (h : (s.map Prod.fst).Nodup) : ((insertW k w s).map Prod.fst).Nodup := by
  by_cases hm : k ∈ s.map Prod.fst
  · rw [keys_insertW_mem k w s hm]; exact h
  · rw [keys_insertW_not_mem k w s hm]
    simp [List.nodup_append, h, hm]

theorem ids_insertW (k : String) (w : Worker) (s : Store)
    (h : ∀ p ∈ s, (p.2).id = p.1) (hid : w.id = k) :
    ∀ p ∈ insertW k w s, (p.2).id = p.1 := by
  induction s with
  | nil => simpa [insertW] using hid
  | cons hd tl ih =>
      obtain ⟨k1, w1⟩ := hd
      have hhd : w1.id = k1 := h (k1, w1) (by simp)
      have htl : ∀ p ∈ tl, (p.2).id = p.1 := fun p hp => h p (by simp [hp])
      by_cases h1 : k1 = k
      · intro p hp
        rcases (by simpa [insertW, h1] using hp) with h2 | h2
        · simp [h2, hid]
        · exact htl p h2
      · intro p hp
        rcases (by simpa [insertW, h1] using hp) with h2 | h2
        · simp [h2, hhd]
        · exact ih htl p h2

theorem ids_modifyW (k : String) (f : Worker → Worker) (s : Store)
    (h : ∀ p ∈ s, (p.2).id = p.1) (hf : ∀ w, (f w).id = w.id) :
    ∀ p ∈ modifyW k f s, (p.2).id = p.1 := by
  induction s with
  | nil => simp [modifyW]
  | cons hd tl ih =>
      obtain ⟨k1, w1⟩ := hd
      have hhd : w1.id = k1 := h (k1, w1) (by simp)
      have htl : ∀ p ∈ tl, (p.2).id = p.1 := fun p hp => h p (by simp [hp])
      by_cases h1 : k1 = k
      · intro p hp
        rcases (by simpa [modifyW, h1] using hp) with h2 | h2
        · simp [h2, hf, hhd, h1]
        · exact htl p h2
      · intro p hp
        rcases (by simpa [modifyW, h1] using hp) with h2 | h2
        · simp [h2, hhd]
        · exact ih htl p h2

theorem WFStore_insertW (k : String) (w : Worker) (s : Store)
    (hWF : WFStore s) (hid : w.id = k) : WFStore (insertW k w s) :=
  ⟨keys_nodup_insertW k w s hWF.1, ids_insertW k w s hWF.2 hid⟩

theorem WFStore_modifyW (k : String) (f : Worker → Worker) (s : Store)
    (hWF : WFStore s) (hf : ∀ w, (f w).id = w.id) :
    WFStore (modifyW k f s) := by
  refine ⟨?_, ids_modifyW k f s hWF.2 hf⟩
  rw [keys_modifyW]
  exact hWF.1

theorem save_result_store_cases (s : Store) (pid : String) (primes : List Int)
    (out : SaveOutcome) (h : save_result s pid primes = some out) :
    (∃ pr, out.store = modifyW pid (fun wo => { wo with results := some pr }) s) ∨
    (∃ pr, out.store = insertW pid { id := pid, results := some pr } s) := by
  unfold save_result at h
  cases hd : derived_summary primes with
  | none => rw [hd] at h; cases h
  | some pr =>
      rw [hd] at h
      cases hl : lookupW pid s with
      | some w =>
          rw [hl] at h
          injection h with h
          subst h
          exact Or.inl ⟨pr, rfl⟩
      | none =>
          rw [hl] at h
          injection h with h
          subst h
          exact Or.inr ⟨pr, rfl⟩

theorem WFStore_applyOp (s : Store) (op : Op) (hWF : WFStore s) :
    WFStore (applyOp s op) := by
  cases op with
  | register i =>
      exact WFStore_insertW i _ s hWF rfl
  | submit i ps =>
      cases hs : save_result s i ps with
      | none =>
          simpa [applyOp, hs] using hWF
      | some out =>
          rcases save_result_store_cases s i ps out hs with ⟨pr, hst⟩ | ⟨pr, hst⟩
          · simpa [applyOp, hs, hst] using
              WFStore_modifyW i (fun wo => { wo with results := some pr }) s hWF
                (fun w => rfl)
          · simpa [applyOp, hs, hst] using
              WFStore_insertW i { id := i, results := some pr } s hWF rfl

theorem WFStore_run (s : Store) (ops : List Op) (hWF : WFStore s) :
    WFStore (run s ops) := by
  induction ops generalizing s with
  | nil => exact hWF
  | cons op rest ih =>
      exact ih (applyOp s op) (WFStore_applyOp s op hWF)

theorem WFStore_countKey_mem (s : Store) (hWF : WFStore s) :
    ∀ p ∈ s, countKey p.1 s = 1 := by
  intro p hp
  rw [countKey_eq_count_keys]
  exact List.count_eq_one_of_mem hWF.1 (List.mem_map_of_mem Prod.fst hp)

theorem derived_summary_eq (v : List Int) (hv : v ≠ []) :
    derived_summary v = some { quantity := v.length, max_prime := v.getLast hv } := by
  unfold derived_summary
  rw [← List.getLast?_eq_getElem?, List.getLast?_eq_getLast_of_ne_nil hv]
  rfl

theorem mem_le_getLast : ∀ (v : List Int) (hv : v ≠ []),
    List.Sorted (· ≤ ·) v → ∀ b ∈ v, b ≤ v.getLast hv
  | [], hv, _, _, _ => absurd rfl hv
  | [a], _, _, b, hb => by
      simp at hb
      simp [hb, List.getLast_singleton]
  | a :: c :: t, _, hs, b, hb => by
      have h1 := (List.sorted_cons.mp hs).1
      have h2 := (List.sorted_cons.mp hs).2
      rw [List.getLast_cons (List.cons_ne_nil c t)]
      rcases List.mem_cons.mp hb with rfl | hbm
      · exact h1 _ (List.getLast_mem (List.cons_ne_nil c t))
      · exact mem_le_getLast (c :: t) (List.cons_ne_nil c t) h2 b hbm

theorem sorted_maximum_eq_getLast (v : List Int) (hv : v ≠ [])
    (hs : List.Sorted (· ≤ ·) v) :
    v.maximum = ((v.getLast hv : Int) : WithBot Int) :=
  List.maximum_eq_coe_iff.mpr ⟨List.getLast_mem hv, mem_le_getLast v hv hs⟩

theorem create_workers_no_apierr (cp : Resource → KubeResult) (t : String)
    (h : ∀ j, isApiErr (cp (.workerPod t j)) = false) :
    ∀ (c idx : Nat), create_workers cp t idx c =
      ((List.range' idx c).map
        (fun j => (Resource.workerPod t j, cp (.workerPod t j))), 200) := by
  intro c
  induction c with
  | zero => intro idx; simp [create_workers]
  | succ c ih =>
      intro idx
      cases hr : cp (.workerPod t idx) with
      | apiErr code =>
          have := h idx
          rw [hr] at this
          simp [isApiErr] at this
      | ok => simp [create_workers, hr, ih, List.range'_succ]
      | otherErr => simp [create_workers, hr, ih, List.range'_succ]

theorem create_workers_apierr_abort (cp : Resource → KubeResult) (t : String) :
    ∀ (k idx c code : Nat),
      (∀ j, j < k → cp (.workerPod t (idx + j)) = .ok) →
      cp (.workerPod t (idx + k)) = .apiErr code →
      k < c →
      create_workers cp t idx c =
        ((List.range' idx k).map (fun j => (Resource.workerPod t j, KubeResult.ok)) ++
          [(Resource.workerPod t (idx + k), KubeResult.apiErr code)], 500) := by
  intro k
  induction k with
  | zero =>
      intro idx c code _ herr hlt
      obtain ⟨c1, rfl⟩ : ∃ c1, c = c1 + 1 := ⟨c - 1, by omega⟩
      simp only [Nat.add_zero] at herr
      simp [create_workers, herr]
  | succ k ih =>
      intro idx c code hok herr hlt
      obtain ⟨c1, rfl⟩ : ∃ c1, c = c1 + 1 := ⟨c - 1, by omega⟩
      have h0 : cp (.workerPod t idx) = .ok := by
        simpa using hok 0 (Nat.succ_pos k)
      have hok1 : ∀ j, j < k → cp (.workerPod t (idx + 1 + j)) = .ok := by
        intro j hj
        have e : idx + (j + 1) = idx + 1 + j := by omega
        have := hok (j + 1) (by omega)
        rw [e] at this
        exact this
      have herr1 : cp (.workerPod t (idx + 1 + k)) = .apiErr code := by
        have e : idx + (k + 1) = idx + 1 + k := by omega
        rw [e] at herr
        exact herr
      have hrec := ih (idx + 1) c1 code hok1 herr1 (by omega)
      have e2 : idx + (k + 1) = idx + 1 + k := by omega
      simp [create_workers, h0, hrec, List.range'_succ, e2]

/-- C1 (counterexample): the claim says `SubmitResult(id, values)` reports
success for every list of values including the empty list.  It is false:
on the empty list the handler derives `primes.get(primes.len() - 1)` where
`primes.len() - 1` underflows and the `unwrap` panics (line 104), so the
request fails instead of returning 200 — even for an already-registered
worker. -/
theorem C1_submit_empty_panics :
    save_result [("w1", { id := "w1", results := none })] "w1" [] = none := rfl

/-- C1 (amended): for every identifier and every NON-EMPTY list of values,
`SubmitResult` completes and reports success (200) regardless of whether a
record for the id already exists. -/
theorem C1_submit_nonempty_ok (s : Store) (pid : String) (v : List Int)
    (hv : v ≠ []) : (save_result s pid v).map SaveOutcome.status = some 200 := by
  cases hl : lookupW pid s <;>
    simp [save_result, derived_summary_eq v hv, hl]

/-- C1 (witness): the amended theorem applied at a concrete input. -/
theorem C1_submit_nonempty_ok_witness :
    (save_result [] "w1" [2]).map SaveOutcome.status = some 200 :=
  C1_submit_nonempty_ok [] "w1" [2] (by decide)

/-- C2 (counterexample): the claim says `Provision(0)` returns a client
error and creates zero cluster resources.  The client error (400) is
right, but the namespace is created at lines 64-84, before the
`workload.count <= 0` check at line 86: on an all-successful control
plane, `Provision(0)` leaves exactly one created resource (the
namespace). -/
theorem C2_provision_zero_creates_namespace :
    init_workload cpAllOk false "abc12345" 0 =
      ([(Resource.ns "abc12345" false, KubeResult.ok)], some 400)
    ∧ (init_workload cpAllOk false "abc12345" 0).1.length = 1 :=
  ⟨rfl, rfl⟩

/-- C2 (amended): `Provision(0)` returns a client-error response (400) and
creates no Coordinator deployment, no service, and no worker units; the
namespace, however, is created before the validation runs, so exactly one
namespace exists when the rejection is returned. -/
theorem C2_provision_zero_rejected_after_ns (cp : Resource → KubeResult)
    (linkerd : Bool) (tns : String)
    (h : cp (Resource.ns tns linkerd) = .ok) :
    init_workload cp linkerd tns 0 =
      ([(Resource.ns tns linkerd, KubeResult.ok)], some 400) := by
  simp [init_workload, h]

/-- C2 (witness): the amended theorem applied at a concrete input. -/
theorem C2_provision_zero_rejected_after_ns_witness :
    init_workload cpAllOk true "ns0" 0 =
      ([(Resource.ns "ns0" true, KubeResult.ok)], some 400) :=
  C2_provision_zero_rejected_after_ns cpAllOk true "ns0" rfl

/-- C3: for every well-formed store, identifier and non-empty value list,
`Register(id)` followed by `SubmitResult(id, v)` succeeds (200) and leaves
exactly one record for `id`, whose result is the derived summary of `v`:
`quantity = v.length` and `max_prime` the summary value (the last
element; for `v = [2,3,5,7]` that is `count = 4`, `maxValue = 7`). -/
theorem C3_register_then_submit (s : Store) (i : String) (v : List Int)
    (hWF : WFStore s) (hv : v ≠ []) :
    (save_result (register_sieve s i).1 i v).map (fun o => lookupW i o.store) =
      some (some
        { id := i,
          results := some { quantity := v.length, max_prime := v.getLast hv } })
    ∧ (save_result (register_sieve s i).1 i v).map (fun o => countKey i o.store) =
        some 1
    ∧ (save_result (register_sieve s i).1 i v).map SaveOutcome.status = some 200 := by
  have hs1 : lookupW i (insertW i { id := i, results := none } s) =
      some { id := i, results := none } := lookupW_insertW_self i _ s
  refine ⟨?_, ?_, ?_⟩ <;>
    simp [register_sieve, save_result, derived_summary_eq v hv, hs1,
      lookupW_modifyW_self, countKey_modifyW,
      countKey_insertW_self i { id := i, results := none } s hWF.1]

/-- C3 (witness): the theorem applied at the spec's scenario
`Register("w1")` then `SubmitResult("w1", [2,3,5,7])`. -/
theorem C3_register_then_submit_witness :
    (save_result (register_sieve [] "w1").1 "w1" [2, 3, 5, 7]).map
        (fun o => lookupW "w1" o.store) =
      some (some
        { id := "w1",
          results := some { quantity := 4, max_prime := 7 } })
    ∧ (save_result (register_sieve [] "w1").1 "w1" [2, 3, 5, 7]).map
        (fun o => countKey "w1" o.store) = some 1
    ∧ (save_result (register_sieve [] "w1").1 "w1" [2, 3, 5, 7]).map
        SaveOutcome.status = some 200 := by
  have h := C3_register_then_submit [] "w1" [2, 3, 5, 7] (by simp [WFStore]) (by decide)
  exact h

/-- C4: for every `n > 0`, a `Provision(n)` call on which every
control-plane creation succeeds creates exactly one namespace, exactly one
Coordinator deployment, exactly one headless discovery service and exactly
`n` worker units, and in exactly this order: namespace, then deployment,
then service, then workers `0 .. n-1`.  The trace equality exhibits both
the counts and the relative order. -/
theorem C4_provision_success_trace (cp : Resource → KubeResult)
    (linkerd : Bool) (tns : String) (n : Nat)
    (hcp : ∀ r, cp r = .ok) (hn : 0 < n) :
    init_workload cp linkerd tns n =
      ((Resource.ns tns linkerd, KubeResult.ok) ::
        (Resource.deployment tns, KubeResult.ok) ::
        (Resource.service tns, KubeResult.ok) ::
        (List.range' 0 n).map (fun j => (Resource.workerPod tns j, KubeResult.ok)),
       some 200) := by
  have hne : n ≠ 0 := by omega
  have hno : ∀ j, isApiErr (cp (.workerPod tns j)) = false := by
    intro j
    rw [hcp]
    rfl
  have hw := create_workers_no_apierr cp tns hno n 0
  have hmap : (List.range' 0 n).map
        (fun j => (Resource.workerPod tns j, cp (.workerPod tns j))) =
      (List.range' 0 n).map (fun j => (Resource.workerPod tns j, KubeResult.ok)) :=
    List.map_congr_left (fun a _ => by rw [hcp])
  rw [hmap] at hw
  simp [init_workload, hcp, hne, deploy_instance_service, hw]

/-- C4 (witness): the theorem applied at a concrete input with two
workers. -/
theorem C4_provision_success_trace_witness :
    init_workload cpAllOk false "job1" 2 =
      ((Resource.ns "job1" false, KubeResult.ok) ::
        (Resource.deployment "job1", KubeResult.ok) ::
        (Resource.service "job1", KubeResult.ok) ::
        (List.range' 0 2).map (fun j => (Resource.workerPod "job1" j, KubeResult.ok)),
       some 200) :=
  C4_provision_success_trace cpAllOk false "job1" 2 (fun r => rfl) (by decide)

/-- C5 (counterexample): the claim says EVERY control-plane error on a
worker-unit creation aborts the remaining loop and reports failure.  It is
false: only `kube::Error::Api` errors abort (line 160); any other
`kube::Error` is merely logged (line 163) and the loop continues.  On a
control plane failing worker 0 with a non-`Api` error, worker 1 is still
attempted and the call reports success (200). -/
theorem C5_worker_othererr_continues :
    init_workload cpOtherErrW0 false "job2" 2 =
      ((Resource.ns "job2" false, KubeResult.ok) ::
        (Resource.deployment "job2", KubeResult.ok) ::
        (Resource.service "job2", KubeResult.ok) ::
        [(Resource.workerPod "job2" 0, KubeResult.otherErr),
         (Resource.workerPod "job2" 1, KubeResult.ok)],
       some 200) := rfl

/-- C5 (amended): during the worker-creation loop, a control-plane error
CLASSIFIED AS AN API ERROR (`kube::Error::Api`) on a worker-unit creation
aborts the remaining loop — no further worker units are attempted — and
the call reports failure (500); a control-plane error that is not an API
error is only logged, the loop continues through all remaining workers,
and the call reports success (200). -/
theorem C5_worker_error_handling :
    (∀ (cp : Resource → KubeResult) (linkerd : Bool) (tns : String) (n k code : Nat),
      cp (Resource.ns tns linkerd) = .ok →
      (∀ j, j < k → cp (.workerPod tns j) = .ok) →
      cp (.workerPod tns k) = .apiErr code →
      k < n →
      init_workload cp linkerd tns n =
        ((Resource.ns tns linkerd, KubeResult.ok) ::
          deploy_instance_service cp tns ++
          ((List.range' 0 k).map (fun j => (Resource.workerPod tns j, KubeResult.ok)) ++
            [(Resource.workerPod tns k, KubeResult.apiErr code)]),
         some 500))
    ∧ (∀ (cp : Resource → KubeResult) (linkerd : Bool) (tns : String) (n : Nat),
      cp (Resource.ns tns linkerd) = .ok →
      (∀ j, isApiErr (cp (.workerPod tns j)) = false) →
      n ≠ 0 →
      init_workload cp linkerd tns n =
        ((Resource.ns tns linkerd, KubeResult.ok) ::
          deploy_instance_service cp tns ++
          (List.range' 0 n).map
            (fun j => (Resource.workerPod tns j, cp (.workerPod tns j))),
         some 200)) := by
  constructor
  · intro cp linkerd tns n k code hns hok herr hkn
    have hne : n ≠ 0 := by omega
    have hok0 : ∀ j, j < k → cp (.workerPod tns (0 + j)) = .ok := by
      intro j hj
      simpa using hok j hj
    have herr0 : cp (.workerPod tns (0 + k)) = .apiErr code := by simpa using herr
    have hw := create_workers_apierr_abort cp tns k 0 n code hok0 herr0 hkn
    simp only [Nat.zero_add] at hw
    simp [init_workload, hns, hne, hw]
  · intro cp linkerd tns n hns hno hne
    have hw := create_workers_no_apierr cp tns hno n 0
    simp [init_workload, hns, hne, hw]

/-- C5 (witness): the amended theorem applied at concrete inputs — an API
error (429) on worker 1 out of 3 aborts after attempting workers 0 and 1
and reports 500; a non-API error on worker 0 out of 2 still attempts both
workers and reports 200. -/
theorem C5_worker_error_handling_witness :
    init_workload cpApiErrW1 false "job3" 3 =
      ((Resource.ns "job3" false, KubeResult.ok) ::
        deploy_instance_service cpApiErrW1 "job3" ++
        ((List.range' 0 1).map (fun j => (Resource.workerPod "job3" j, KubeResult.ok)) ++
          [(Resource.workerPod "job3" 1, KubeResult.apiErr 429)]),
       some 500)
    ∧ init_workload cpOtherErrW0 false "job3" 2 =
      ((Resource.ns "job3" false, KubeResult.ok) ::
        deploy_instance_service cpOtherErrW0 "job3" ++
        (List.range' 0 2).map
          (fun j => (Resource.workerPod "job3" j, cpOtherErrW0 (.workerPod "job3" j))),
       some 200) :=
  ⟨C5_worker_error_handling.1 cpApiErrW1 false "job3" 3 1 429 rfl (by decide) rfl
      (by decide),
   C5_worker_error_handling.2 cpOtherErrW0 false "job3" 2 rfl
      (by intro j; cases j <;> rfl) (by decide)⟩

/-- C6: `Register(id)` replies 201 and unconditionally installs a fresh
record `{ id, results: None }` under `id` — whether or not a record (even
a Completed one) already existed, its previous result is erased — and
leaves every other identifier's record unchanged. -/
theorem C6_register_overwrites (s : Store) (i : String) :
    (register_sieve s i).2 = 201
    ∧ lookupW i (register_sieve s i).1 = some { id := i, results := none }
    ∧ ∀ k, k ≠ i → lookupW k (register_sieve s i).1 = lookupW k s :=
  ⟨rfl, lookupW_insertW_self i _ s, fun k hk => lookupW_insertW_ne i k _ s hk⟩

/-- C6 (witness): the theorem applied to a store whose record for `"w1"`
already holds a Completed result: re-registration erases it; the record
for another key is untouched. -/
theorem C6_register_overwrites_witness :
    lookupW "w1" (register_sieve
        [("w1", { id := "w1", results := some { quantity := 2, max_prime := 5 } })]
        "w1").1 = some { id := "w1", results := none }
    ∧ lookupW "w9" (register_sieve
        [("w1", { id := "w1", results := some { quantity := 2, max_prime := 5 } })]
        "w1").1 =
      lookupW "w9"
        [("w1", { id := "w1", results := some { quantity := 2, max_prime := 5 } })] :=
  ⟨(C6_register_overwrites _ "w1").2.1,
   (C6_register_overwrites _ "w1").2.2 "w9" (by decide)⟩

/-- C7: `SubmitResult(id, v)` with no prior `Register(id)` and non-empty
`v` succeeds (200), emits the out-of-order warning event, and yields
exactly one retrievable record for `id`, which is Completed: its result
is the derived summary of `v`. -/
theorem C7_submit_unregistered_upsert (s : Store) (i : String) (v : List Int)
    (hnone : lookupW i s = none) (hv : v ≠ []) :
    save_result s i v =
      some
        { store := insertW i
            { id := i,
              results := some { quantity := v.length, max_prime := v.getLast hv } } s,
          redisWrites := [(i, v.getLast hv)],
          warned := true,
          status := 200 }
    ∧ countKey i (insertW i
        { id := i,
          results := some { quantity := v.length, max_prime := v.getLast hv } } s) = 1
    ∧ lookupW i (insertW i
        { id := i,
          results := some { quantity := v.length, max_prime := v.getLast hv } } s) =
      some
        { id := i,
          results := some { quantity := v.length, max_prime := v.getLast hv } } := by
  refine ⟨?_, countKey_insertW_of_not_mem i _ s hnone, lookupW_insertW_self i _ s⟩
  simp [save_result, derived_summary_eq v hv, hnone]

/-- C7 (witness): the theorem applied at the spec's scenario
`SubmitResult("w2", [2])` with no prior registration. -/
theorem C7_submit_unregistered_upsert_witness :
    save_result [] "w2" [2] =
      some
        { store := [("w2", { id := "w2", results := some { quantity := 1, max_prime := 2 } })],
          redisWrites := [("w2", 2)],
          warned := true,
          status := 200 }
    ∧ countKey "w2"
        [("w2", { id := "w2", results := some { quantity := 1, max_prime := 2 } })] = 1 := by
  have h := C7_submit_unregistered_upsert [] "w2" [2] rfl (by decide)
  exact ⟨h.1, h.2.1⟩

/-- C8 (counterexample): the claim says the stored `maxValue` and the
numeric maximum coincide ONLY when the submitted list is sorted in
ascending order.  That is false: for the unsorted list `[2, 1, 2]` the
stored `max_prime` (the last element, 2) equals the numeric maximum (2)
although the list is not sorted. -/
theorem C8_unsorted_last_equals_max :
    derived_summary [2, 1, 2] = some { quantity := 3, max_prime := 2 }
    ∧ ([2, 1, 2] : List Int).maximum = ((2 : Int) : WithBot Int)
    ∧ ¬ List.Sorted (· ≤ ·) ([2, 1, 2] : List Int) :=
  ⟨rfl, by decide, by decide⟩

/-- C8 (amended): for every non-empty list of values the stored
`max_prime` is the LAST element in submission order, not the numeric
maximum; the two coincide exactly when the last element is a maximum — in
particular whenever the list is sorted in ascending order — and for
unsorted input the stored value can be strictly smaller than the true
maximum, as `[3, 1]` shows (stored 1, true maximum 3). -/
theorem C8_stored_max_is_last :
    (∀ (v : List Int) (hv : v ≠ []),
      derived_summary v = some { quantity := v.length, max_prime := v.getLast hv })
    ∧ (∀ (v : List Int) (hv : v ≠ []), List.Sorted (· ≤ ·) v →
      v.maximum = ((v.getLast hv : Int) : WithBot Int))
    ∧ derived_summary [3, 1] = some { quantity := 2, max_prime := 1 }
    ∧ ([3, 1] : List Int).maximum = ((3 : Int) : WithBot Int)
    ∧ (1 : Int) < 3 :=
  ⟨derived_summary_eq, sorted_maximum_eq_getLast, rfl, by decide, by decide⟩

/-- C8 (witness): the amended theorem applied at the sorted list
`[2, 3, 5, 7]`, where stored value and true maximum agree. -/
theorem C8_stored_max_is_last_witness :
    derived_summary [2, 3, 5, 7] = some { quantity := 4, max_prime := 7 }
    ∧ ([2, 3, 5, 7] : List Int).maximum = ((7 : Int) : WithBot Int) :=
  ⟨C8_stored_max_is_last.1 [2, 3, 5, 7] (by decide),
   C8_stored_max_is_last.2.1 [2, 3, 5, 7] (by decide) (by decide)⟩

/-- C9: across every sequence of `Register` and `SubmitResult` operations
started from a well-formed store, the store stays well-formed: there is
exactly one record per stored identifier (`countKey p.1 = 1`), and every
stored record's `id` field equals the key it is stored under — so neither
operation ever changes an existing record's identifier (the record under a
key always carries that key as its identifier). -/
theorem C9_store_invariant (s : Store) (ops : List Op) (hWF : WFStore s) :
    WFStore (run s ops)
    ∧ (∀ p ∈ run s ops, countKey p.1 (run s ops) = 1)
    ∧ (∀ p ∈ run s ops, (p.2).id = p.1) := by
  have h := WFStore_run s ops hWF
  exact ⟨h, WFStore_countKey_mem (run s ops) h, h.2⟩

/-- C9 (witness): the theorem applied to a concrete operation sequence
mixing registrations, updates, an out-of-order submit and a panicking
empty submit, starting from the empty store. -/
theorem C9_store_invariant_witness :
    WFStore (run [] [Op.register "w1", Op.submit "w1" [2, 3],
      Op.register "w2", Op.submit "w3" [5], Op.submit "w1" []])
    ∧ (∀ p ∈ run [] [Op.register "w1", Op.submit "w1" [2, 3],
        Op.register "w2", Op.submit "w3" [5], Op.submit "w1" []],
        countKey p.1 (run [] [Op.register "w1", Op.submit "w1" [2, 3],
          Op.register "w2", Op.submit "w3" [5], Op.submit "w1" []]) = 1)
    ∧ (∀ p ∈ run [] [Op.register "w1", Op.submit "w1" [2, 3],
        Op.register "w2", Op.submit "w3" [5], Op.submit "w1" []],
        (p.2).id = p.1) :=
  C9_store_invariant [] [Op.register "w1", Op.submit "w1" [2, 3],
    Op.register "w2", Op.submit "w3" [5], Op.submit "w1" []] (by simp [WFStore])

/-- C10 (code bug): the spec requires each lookup-plus-upsert to execute
as one atomic critical section so that concurrent `Register(id)` and
`SubmitResult(id, v)` serialize with no lost update.  The handlers instead
call `store.try_lock().unwrap()` (lines 86 and 99): while `Register("w1")`
holds the lock (it sleeps 400-1000 ms inside it, lines 91-92), a
concurrent `SubmitResult("w1", [2])` finds the mutex held, `try_lock`
fails, the `unwrap` panics, and the submitted result is dropped — the
record stays `{ id: "w1", results: None }` — whereas applying the
operation, as the spec demands, would have stored the result
`{ quantity: 1, max_prime: 2 }`.  The update is lost. -/
theorem C10_concurrent_submit_lost :
    try_lock_call true (run [] [Op.register "w1"]) (Op.submit "w1" [2]) =
      (run [] [Op.register "w1"], LockOutcome.panicked)
    ∧ lookupW "w1"
        (try_lock_call true (run [] [Op.register "w1"]) (Op.submit "w1" [2])).1 =
      some { id := "w1", results := none }
    ∧ lookupW "w1" (applyOp (run [] [Op.register "w1"]) (Op.submit "w1" [2])) =
      some { id := "w1", results := some { quantity := 1, max_prime := 2 } } :=
  ⟨rfl, rfl, rfl⟩
